import Mathlib

/-!
Shallow embedding of `src/StdUnorderedMapPerfIssue/StdUnorderedMapPerfIssue.cpp`,
a micro-benchmark that populates hash maps keyed by a composite key under two
hash-combination strategies and times the population loop.

Machine integers are modelled as `Nat` with explicit reduction modulo `2 ^ w`
where the C++ type forces it; `std::size_t` is modelled as a 64-bit quantity.
The platform primitives the program uses — the string hash
(`std::hash<std::string>`), the pseudo-random engine
(`std::default_random_engine` with `std::uniform_int_distribution`) and the
wall clock (`std::chrono::system_clock::now`) — are not part of the
repository, so the embedding is parameterised over them.
-/

namespace StdMapPerf

/-- Composite key type (`struct Key`): an unsigned 32-bit numeric field
`Datum` (well-formed values are `< 2 ^ 32`) and a text field `Text`. -/
structure Key where
  Datum : Nat
  Text : String
deriving DecidableEq

/-- Source `Key::operator==`: `Datum == rhs.Datum && Text == rhs.Text`. -/
def Key.beq (k1 k2 : Key) : Bool :=
  (k1.Datum == k2.Datum) && (k1.Text == k2.Text)

/-- Source `HasherA::operator()`: `textHash & 0xFFFFFFFF00000000 | key.Datum`.
C++ gives `&` higher precedence than `|`, exactly as `&&&` binds tighter than
`|||` here.  `textHash` has type `std::size_t` (64-bit, hence the `% 2 ^ 64`),
and the returned expression is a `std::size_t` as well. -/
def HasherA (shash : String → Nat) (key : Key) : Nat :=
  let textHash := shash key.Text % 2 ^ 64
  (textHash &&& 0xFFFFFFFF00000000 ||| key.Datum) % 2 ^ 64

/-- Source `HasherB::operator()`:
`(static_cast<std::uint64_t>(key.Datum) << 32) | (textHash & 0xFFFFFFFF)`,
returned as a `std::size_t` (64-bit). -/
def HasherB (shash : String → Nat) (key : Key) : Nat :=
  let textHash := shash key.Text % 2 ^ 64
  (key.Datum <<< 32 ||| textHash &&& 0xFFFFFFFF) % 2 ^ 64

/-- A map instance is modelled as an association list of key/value entries
(the entries of the `unordered_map`, in insertion order). -/
abbrev KMap := List (Key × Nat)

/-- Entry assignment `map[key] = v` through `unordered_map::operator[]`:
overwrite the value if the key is already present (key equivalence is the
container's `key_equal`, i.e. `Key::operator==`), otherwise add a new
entry. -/
def mapAssign (m : KMap) (k : Key) (v : Nat) : KMap :=
  if m.any (fun p => Key.beq p.1 k) then
    m.map (fun p => if Key.beq p.1 k then (p.1, v) else p)
  else
    m ++ [(k, v)]

/-- External pseudo-random source: `next` consumes an engine state and returns
the next drawn value together with the successor state
(`std::uniform_int_distribution<std::uint32_t>(0, UINT32_MAX)` applied to the
engine; the drawn value is reduced `% 2 ^ 32` at its use site to reflect the
`std::uint32_t` result type), and `defaultSeed` is the state of a
default-constructed `std::default_random_engine`. -/
structure RandomEngine where
  next : Nat → Nat × Nat
  defaultSeed : Nat

/-- Constant text shared by every generated key
(`std::string text = "all elements share the same text"`). -/
def populateText : String := "all elements share the same text"

/-- Loop of `PopulateMap`, running `fuel` more times with loop counter `i` and
engine state `s`: draw a numeric field, form the key with the shared text and
assign `map[key] = i % 256`.  Returns the final map together with the
sequence of (key, value) assignment events generated, in order. -/
def populateGo (eng : RandomEngine) (text : String) :
    Nat → Nat → Nat → KMap → KMap × List (Key × Nat)
  | 0, _, _, m => (m, [])
  | fuel + 1, i, s, m =>
    let drawn := (eng.next s).1 % 2 ^ 32
    let key : Key := ⟨drawn, text⟩
    let rest := populateGo eng text fuel (i + 1) (eng.next s).2
      (mapAssign m key (i % 256))
    (rest.1, (key, i % 256) :: rest.2)

/-- Body of `PopulateMap` acting on the function's own `map` variable: the
engine is a fresh local (`std::default_random_engine engine;`), so drawing
starts from `defaultSeed`, and the loop runs `numElements` times from
`i = 0`. -/
def populateBody (eng : RandomEngine) (numElements : Nat) (map : KMap) : KMap :=
  (populateGo eng populateText numElements 0 eng.defaultSeed map).1

/-- A call `PopulateMap(numElements, map)`: the map parameter is declared by
value (`MapType map`, not a reference), so the function's body operates on a
copy of the caller's argument; the function returns `void`, hence after the
call the caller still holds its original map. -/
def PopulateMap (eng : RandomEngine) (numElements : Nat) (map : KMap) : KMap :=
  let localCopy := map
  let _ := populateBody eng numElements localCopy
  map

/-- Sequence of (key, value) assignment events generated by one invocation of
`PopulateMap` with the given element count, where `map` is the caller's
argument at call time. -/
def populateEvents (eng : RandomEngine) (numElements : Nat) (map : KMap) :
    List (Key × Nat) :=
  (populateGo eng populateText numElements 0 eng.defaultSeed map).2

/-- One process: a list of `PopulateMap` invocations, each recorded as the
element count and the caller's map at call time.  `processEvents` lists each
invocation's generated (key, value) sequence. -/
def processEvents (eng : RandomEngine) (calls : List (Nat × KMap)) :
    List (List (Key × Nat)) :=
  calls.map fun c => populateEvents eng c.1 c.2

/-- Source `map.clear()`: removes every entry. -/
def clearMap (_m : KMap) : KMap := []

/-- Result of `RunTest`: the per-iteration durations, the value returned to
the caller (`InSeconds`, the accumulated total) and the average printed to
the console (`InSeconds.count() / numIterations`).  Durations are modelled
as rationals. -/
structure RunTestResult where
  durations : List ℚ
  returned : ℚ
  average : ℚ

/-- Iteration loop of `RunTest`: iteration `i` reads the clock (`clock c` is
the value of the `c`-th `system_clock::now()` call of this run, two per
iteration), invokes `PopulateMap` on the local map, clears the map, and
appends the elapsed duration to the list. -/
def runTestGo (eng : RandomEngine) (clock : Nat → ℚ) (numElements : Nat) :
    Nat → Nat → KMap → List ℚ → KMap × List ℚ
  | 0, _, map, durations => (map, durations)
  | fuel + 1, i, map, durations =>
    let startTime := clock (2 * i)
    let afterPopulate := PopulateMap eng numElements map
    let afterClear := clearMap afterPopulate
    let iterationDuration := clock (2 * i + 1) - startTime
    runTestGo eng clock numElements fuel (i + 1) afterClear
      (durations ++ [iterationDuration])

/-- Source `RunTest`: a default-constructed local map with reserved capacity
(`MapType map; map.reserve(numElements);`), the iteration loop, then
`InSeconds = accumulate(durations, 0)` which is returned, and the printed
average `InSeconds.count() / numIterations`. -/
def RunTest (eng : RandomEngine) (clock : Nat → ℚ)
    (numIterations numElements : Nat) : RunTestResult :=
  let map : KMap := []
  let durations := (runTestGo eng clock numElements numIterations 0 map []).2
  let InSeconds := durations.foldl (fun a d => a + d) 0
  ⟨durations, InSeconds, InSeconds / (numIterations : ℚ)⟩

/-- Map implementations compared by the benchmark. -/
inductive MapImpl
  | boostMap
  | stdMap
deriving DecidableEq

/-- Hasher variants compared by the benchmark. -/
inductive Variant
  | A
  | B
deriving DecidableEq

/-- Observable outcome of `_tmain`: the sequence of `RunTest` invocations
(map implementation, hasher variant, iteration count, element count), the
two printed boost/std runtime ratios, and the process exit code. -/
structure MainResult where
  calls : List (MapImpl × Variant × Nat × Nat)
  ratioA : ℚ
  ratioB : ℚ
  exitCode : Nat

/-- Source `_tmain`: ignores `argc`/`argv`, fixes `numIterations = 5` and
`numElements = 20000`, runs `RunTest` once for each of the four map/hasher
combinations in source order, prints the two boost/std ratios, and returns
`0`.  `clock` assigns each combination its own sequence of wall-clock
readings. -/
def tmain (eng : RandomEngine) (clock : MapImpl → Variant → Nat → ℚ)
    (_argc : Nat) (_argv : List String) : MainResult :=
  let numIterations : Nat := 5
  let numElements : Nat := 20000
  let boostDurationA := RunTest eng (clock .boostMap .A) numIterations numElements
  let stdDurationA := RunTest eng (clock .stdMap .A) numIterations numElements
  let boostDurationB := RunTest eng (clock .boostMap .B) numIterations numElements
  let stdDurationB := RunTest eng (clock .stdMap .B) numIterations numElements
  ⟨[(.boostMap, .A, numIterations, numElements),
    (.stdMap, .A, numIterations, numElements),
    (.boostMap, .B, numIterations, numElements),
    (.stdMap, .B, numIterations, numElements)],
   boostDurationA.returned / stdDurationA.returned,
   boostDurationB.returned / stdDurationB.returned,
   0⟩

/-- Concrete engine used to exercise the definitions on closed inputs. -/
def engEx : RandomEngine := ⟨fun s => (s, s + 1), 0⟩

/-- Concrete stand-in for the platform string hash. -/
def shashEx (s : String) : Nat := s.length * 2654435761 + 17

/-- Concrete clock trace used to exercise `RunTest` on closed inputs. -/
def clockEx (c : Nat) : ℚ := (c : ℚ) * (c : ℚ)

/-! Helper lemmas about the bit-level arithmetic of the two hashers. -/

theorem and_low_mask (x : Nat) : x &&& 0xFFFFFFFF = x % 2 ^ 32 := by
  have h : (0xFFFFFFFF : Nat) = 2 ^ 32 - 1 := by norm_num
  rw [h, Nat.and_pow_two_sub_one_eq_mod]

theorem and_high_mask (x : Nat) (hx : x < 2 ^ 64) :
    x &&& 0xFFFFFFFF00000000 = x / 2 ^ 32 * 2 ^ 32 := by
  apply Nat.eq_of_testBit_eq
  intro i
  have hm : (0xFFFFFFFF00000000 : Nat) = (2 ^ 32 - 1) <<< 32 := by
    rw [Nat.shiftLeft_eq]; norm_num
  have hr : x / 2 ^ 32 * 2 ^ 32 = x >>> 32 <<< 32 := by
    rw [Nat.shiftRight_eq_div_pow, Nat.shiftLeft_eq]
  rw [hm, hr, Nat.testBit_land, Nat.testBit_shiftLeft, Nat.testBit_shiftLeft,
    Nat.testBit_two_pow_sub_one, Nat.testBit_shiftRight]
  rcases Nat.lt_or_ge i 32 with h1 | h1
  · simp [Nat.not_le.mpr h1]
  · rcases Nat.lt_or_ge i 64 with h2 | h2
    · have e : 32 + (i - 32) = i := by omega
      have e2 : i - 32 < 32 := by omega
      simp [h1, e, e2]
    · have e : 32 + (i - 32) = i := by omega
      have hxb : x.testBit i = false := by
        apply Nat.testBit_eq_false_of_lt
        exact lt_of_lt_of_le hx (Nat.pow_le_pow_right (by norm_num) h2)
      simp [h1, e, hxb]

theorem hasherA_eq_add (shash : String → Nat) (key : Key)
    (hd : key.Datum < 2 ^ 32) :
    HasherA shash key = shash key.Text % 2 ^ 64 / 2 ^ 32 * 2 ^ 32 + key.Datum := by
  simp only [HasherA]
  have htlt : shash key.Text % 2 ^ 64 < 2 ^ 64 := Nat.mod_lt _ (by norm_num)
  have hq : shash key.Text % 2 ^ 64 / 2 ^ 32 < 2 ^ 32 := by
    apply Nat.div_lt_of_lt_mul
    calc shash key.Text % 2 ^ 64 < 2 ^ 64 := htlt
    _ = 2 ^ 32 * 2 ^ 32 := by norm_num
  rw [and_high_mask _ htlt, Nat.mul_comm (shash key.Text % 2 ^ 64 / 2 ^ 32) (2 ^ 32),
    ← Nat.mul_add_lt_is_or hd, Nat.mul_comm (2 ^ 32) (shash key.Text % 2 ^ 64 / 2 ^ 32)]
  apply Nat.mod_eq_of_lt
  calc shash key.Text % 2 ^ 64 / 2 ^ 32 * 2 ^ 32 + key.Datum
      < (shash key.Text % 2 ^ 64 / 2 ^ 32 + 1) * 2 ^ 32 := by
        rw [Nat.add_mul, Nat.one_mul]; omega
    _ ≤ 2 ^ 32 * 2 ^ 32 := by
        apply Nat.mul_le_mul_right
        omega
    _ = 2 ^ 64 := by norm_num

theorem hasherB_eq_add (shash : String → Nat) (key : Key)
    (hd : key.Datum < 2 ^ 32) :
    HasherB shash key = key.Datum * 2 ^ 32 + shash key.Text % 2 ^ 32 := by
  simp only [HasherB]
  have hm : shash key.Text % 2 ^ 64 % 2 ^ 32 = shash key.Text % 2 ^ 32 :=
    Nat.mod_mod_of_dvd _ (by norm_num)
  have hmlt : shash key.Text % 2 ^ 64 % 2 ^ 32 < 2 ^ 32 := Nat.mod_lt _ (by norm_num)
  rw [and_low_mask, Nat.shiftLeft_eq, Nat.mul_comm key.Datum (2 ^ 32),
    ← Nat.mul_add_lt_is_or hmlt, Nat.mul_comm (2 ^ 32) key.Datum, hm]
  apply Nat.mod_eq_of_lt
  have hmlt2 : shash key.Text % 2 ^ 32 < 2 ^ 32 := Nat.mod_lt _ (by norm_num)
  calc key.Datum * 2 ^ 32 + shash key.Text % 2 ^ 32
      < (key.Datum + 1) * 2 ^ 32 := by
        rw [Nat.add_mul, Nat.one_mul]; omega
    _ ≤ 2 ^ 32 * 2 ^ 32 := by
        apply Nat.mul_le_mul_right
        omega
    _ = 2 ^ 64 := by norm_num

/-! Helper lemmas about the population and timing loops. -/

theorem populateGo_events_eq (eng : RandomEngine) (text : String) :
    ∀ (fuel i s : Nat) (m1 m2 : KMap),
      (populateGo eng text fuel i s m1).2 = (populateGo eng text fuel i s m2).2 := by
  intro fuel
  induction fuel with
  | zero => intro i s m1 m2; rfl
  | succ n ih =>
    intro i s m1 m2
    simp only [populateGo]
    exact congrArg _ (ih (i + 1) (eng.next s).2 _ _)

theorem processEvents_length (eng : RandomEngine) (calls : List (Nat × KMap)) :
    (processEvents eng calls).length = calls.length := by
  simp [processEvents]

theorem runTestGo_length (eng : RandomEngine) (clock : Nat → ℚ)
    (numElements : Nat) :
    ∀ (fuel i : Nat) (m : KMap) (ds : List ℚ),
      ((runTestGo eng clock numElements fuel i m ds).2).length = ds.length + fuel := by
  intro fuel
  induction fuel with
  | zero => intro i m ds; rfl
  | succ n ih =>
    intro i m ds
    simp only [runTestGo]
    rw [ih]
    simp
    omega

/-! Theorems settling the claims. -/

/-- Claim C1 (code bug): the spec requires `PopulateMap` to mutate the
caller's map in place, leaving exactly K entries for K distinct drawn
numeric fields; but the map parameter is declared by value, so the code
populates only a local copy.  At the failing input `numElements = 1` with an
initially empty caller map, the caller's map is still empty after the call
even though the body inserted exactly one entry into its local copy. -/
theorem C1_populate_not_in_place_at_one :
    PopulateMap engEx 1 [] = [] ∧ (populateBody engEx 1 []).length = 1 := by
  constructor
  · rfl
  · rfl

/-- Claim C2: a call `PopulateMap(N, m)` leaves the caller's map `m`
unchanged — the same entries and the same size — because the map parameter
is received by value rather than by reference. -/
theorem C2_populate_leaves_caller_map_unchanged (eng : RandomEngine)
    (numElements : Nat) (m : KMap) :
    PopulateMap eng numElements m = m
    ∧ (PopulateMap eng numElements m).length = m.length := by
  exact ⟨rfl, rfl⟩

/-- Claim C3: `HasherA` returns `(hash(text) & 0xFFFFFFFF00000000) | Datum`;
the numeric field is exactly the low 32 bits of the output and the masked
text hash is exactly the output's high bits. -/
theorem C3_hasherA_bit_layout (shash : String → Nat) (key : Key)
    (hd : key.Datum < 2 ^ 32) :
    HasherA shash key = (shash key.Text % 2 ^ 64 &&& 0xFFFFFFFF00000000 ||| key.Datum)
    ∧ HasherA shash key % 2 ^ 32 = key.Datum
    ∧ HasherA shash key / 2 ^ 32 * 2 ^ 32
      = (shash key.Text % 2 ^ 64 &&& 0xFFFFFFFF00000000) := by
  have htlt : shash key.Text % 2 ^ 64 < 2 ^ 64 := Nat.mod_lt _ (by norm_num)
  have he := hasherA_eq_add shash key hd
  have hmask := and_high_mask _ htlt
  refine ⟨?_, ?_, ?_⟩
  · rw [he, hmask, Nat.mul_comm (shash key.Text % 2 ^ 64 / 2 ^ 32) (2 ^ 32),
      ← Nat.mul_add_lt_is_or hd]
  · rw [he]
    omega
  · rw [he, hmask]
    omega

/-- Claim C3 witness at `Datum = 42`, `Text = "x"`. -/
theorem C3_hasherA_bit_layout_witness :
    (Key.mk 42 "x").Datum < 2 ^ 32 ∧
    (HasherA shashEx (Key.mk 42 "x")
        = (shashEx (Key.mk 42 "x").Text % 2 ^ 64 &&& 0xFFFFFFFF00000000
            ||| (Key.mk 42 "x").Datum)
      ∧ HasherA shashEx (Key.mk 42 "x") % 2 ^ 32 = (Key.mk 42 "x").Datum
      ∧ HasherA shashEx (Key.mk 42 "x") / 2 ^ 32 * 2 ^ 32
        = (shashEx (Key.mk 42 "x").Text % 2 ^ 64 &&& 0xFFFFFFFF00000000)) :=
  ⟨by decide, C3_hasherA_bit_layout shashEx (Key.mk 42 "x") (by decide)⟩

/-- Claim C4: `HasherB` returns
`(uint64(Datum) << 32) | (hash(text) & 0xFFFFFFFF)`; the numeric field is
exactly the high 32 bits of the output and the masked text hash is exactly
the output's low 32 bits. -/
theorem C4_hasherB_bit_layout (shash : String → Nat) (key : Key)
    (hd : key.Datum < 2 ^ 32) :
    HasherB shash key = (key.Datum <<< 32 ||| shash key.Text % 2 ^ 64 &&& 0xFFFFFFFF)
    ∧ HasherB shash key % 2 ^ 32 = (shash key.Text % 2 ^ 64 &&& 0xFFFFFFFF)
    ∧ HasherB shash key / 2 ^ 32 = key.Datum := by
  have he := hasherB_eq_add shash key hd
  have hm : shash key.Text % 2 ^ 64 % 2 ^ 32 = shash key.Text % 2 ^ 32 :=
    Nat.mod_mod_of_dvd _ (by norm_num)
  have hmlt : shash key.Text % 2 ^ 64 % 2 ^ 32 < 2 ^ 32 := Nat.mod_lt _ (by norm_num)
  refine ⟨?_, ?_, ?_⟩
  · rw [he, and_low_mask, hm, Nat.shiftLeft_eq, Nat.mul_comm key.Datum (2 ^ 32)]
    exact Nat.mul_add_lt_is_or (Nat.mod_lt _ (by norm_num)) key.Datum
  · rw [he, and_low_mask, hm]
    omega
  · rw [he]
    omega

/-- Claim C4 witness at `Datum = 7`, `Text = "x"`. -/
theorem C4_hasherB_bit_layout_witness :
    (Key.mk 7 "x").Datum < 2 ^ 32 ∧
    (HasherB shashEx (Key.mk 7 "x")
        = ((Key.mk 7 "x").Datum <<< 32
            ||| shashEx (Key.mk 7 "x").Text % 2 ^ 64 &&& 0xFFFFFFFF)
      ∧ HasherB shashEx (Key.mk 7 "x") % 2 ^ 32
        = (shashEx (Key.mk 7 "x").Text % 2 ^ 64 &&& 0xFFFFFFFF)
      ∧ HasherB shashEx (Key.mk 7 "x") / 2 ^ 32 = (Key.mk 7 "x").Datum) :=
  ⟨by decide, C4_hasherB_bit_layout shashEx (Key.mk 7 "x") (by decide)⟩

/-- Claim C5: for two keys with the same text field and distinct numeric
fields, `HasherA` produces distinct values and `HasherB` produces distinct
values. -/
theorem C5_hashers_injective_in_datum (shash : String → Nat) (k1 k2 : Key)
    (h1 : k1.Datum < 2 ^ 32) (h2 : k2.Datum < 2 ^ 32)
    (htext : k1.Text = k2.Text) (hne : k1.Datum ≠ k2.Datum) :
    HasherA shash k1 ≠ HasherA shash k2 ∧ HasherB shash k1 ≠ HasherB shash k2 := by
  constructor
  · intro he
    rw [hasherA_eq_add shash k1 h1, hasherA_eq_add shash k2 h2, htext] at he
    exact hne (by omega)
  · intro he
    rw [hasherB_eq_add shash k1 h1, hasherB_eq_add shash k2 h2, htext] at he
    have hmlt : shash k2.Text % 2 ^ 32 < 2 ^ 32 := Nat.mod_lt _ (by norm_num)
    exact hne (by omega)

/-- Claim C5 witness at keys `(1, "t")` and `(2, "t")`. -/
theorem C5_hashers_injective_in_datum_witness :
    ((Key.mk 1 "t").Datum < 2 ^ 32 ∧ (Key.mk 2 "t").Datum < 2 ^ 32
      ∧ (Key.mk 1 "t").Text = (Key.mk 2 "t").Text
      ∧ (Key.mk 1 "t").Datum ≠ (Key.mk 2 "t").Datum) ∧
    (HasherA shashEx (Key.mk 1 "t") ≠ HasherA shashEx (Key.mk 2 "t")
      ∧ HasherB shashEx (Key.mk 1 "t") ≠ HasherB shashEx (Key.mk 2 "t")) :=
  ⟨⟨by decide, by decide, by decide, by decide⟩,
    C5_hashers_injective_in_datum shashEx (Key.mk 1 "t") (Key.mk 2 "t")
      (by decide) (by decide) (by decide) (by decide)⟩

/-- Claim C6: for two keys with equal text fields, `HasherB` yields outputs
with identical low 32 bits — the low-order bits are determined entirely by
the text hash. -/
theorem C6_hasherB_low_bits_constant (shash : String → Nat) (k1 k2 : Key)
    (h1 : k1.Datum < 2 ^ 32) (h2 : k2.Datum < 2 ^ 32)
    (htext : k1.Text = k2.Text) :
    HasherB shash k1 % 2 ^ 32 = HasherB shash k2 % 2 ^ 32 := by
  rw [hasherB_eq_add shash k1 h1, hasherB_eq_add shash k2 h2, htext]
  omega

/-- Claim C6 witness at keys `(3, "s")` and `(9, "s")`. -/
theorem C6_hasherB_low_bits_constant_witness :
    ((Key.mk 3 "s").Datum < 2 ^ 32 ∧ (Key.mk 9 "s").Datum < 2 ^ 32
      ∧ (Key.mk 3 "s").Text = (Key.mk 9 "s").Text) ∧
    HasherB shashEx (Key.mk 3 "s") % 2 ^ 32 = HasherB shashEx (Key.mk 9 "s") % 2 ^ 32 :=
  ⟨⟨by decide, by decide, by decide⟩,
    C6_hasherB_low_bits_constant shashEx (Key.mk 3 "s") (Key.mk 9 "s")
      (by decide) (by decide) (by decide)⟩

/-- Claim C7: within one process, any two `PopulateMap` invocations with the
same element count generate the identical sequence of keys and values,
whatever the caller's map held at either call: the engine is a fresh local
with its fixed default seed on every call. -/
theorem C7_population_deterministic_within_process (eng : RandomEngine)
    (calls : List (Nat × KMap)) (i j : Nat)
    (hi : i < calls.length) (hj : j < calls.length)
    (hc : (calls.get ⟨i, hi⟩).1 = (calls.get ⟨j, hj⟩).1) :
    (processEvents eng calls).get ⟨i, (processEvents_length eng calls).symm ▸ hi⟩
    = (processEvents eng calls).get ⟨j, (processEvents_length eng calls).symm ▸ hj⟩ := by
  simp only [processEvents, List.get_eq_getElem, List.getElem_map]
  simp only [List.get_eq_getElem] at hc
  rw [populateEvents, populateEvents, hc]
  exact populateGo_events_eq eng populateText _ 0 eng.defaultSeed _ _

/-- Claim C7 witness: in a process whose first and third calls both request
2 elements (with different caller maps), the generated sequences agree. -/
theorem C7_population_deterministic_within_process_witness :
    (processEvents engEx [(2, []), (3, []), (2, [(Key.mk 5 "y", 1)])]).get
        ⟨0, by simp [processEvents]⟩
    = (processEvents engEx [(2, []), (3, []), (2, [(Key.mk 5 "y", 1)])]).get
        ⟨2, by simp [processEvents]⟩ :=
  C7_population_deterministic_within_process engEx
    [(2, []), (3, []), (2, [(Key.mk 5 "y", 1)])] 0 2
    (by decide) (by decide) (by decide)

/-- Claim C8: for `numIterations ≥ 1`, `RunTest` records exactly one duration
per iteration, returns the sum of the recorded durations, and the average it
prints equals that sum divided by `numIterations`. -/
theorem C8_runtest_sum_and_average (eng : RandomEngine) (clock : Nat → ℚ)
    (numIterations numElements : Nat) (h : 1 ≤ numIterations) :
    (RunTest eng clock numIterations numElements).durations.length = numIterations
    ∧ (RunTest eng clock numIterations numElements).returned
      = (RunTest eng clock numIterations numElements).durations.sum
    ∧ (RunTest eng clock numIterations numElements).average
      = (RunTest eng clock numIterations numElements).durations.sum
        / (numIterations : ℚ) := by
  refine ⟨?_, ?_, ?_⟩
  · simp only [RunTest]
    rw [runTestGo_length eng clock numElements numIterations 0 [] []]
    simp
  · simp only [RunTest]
    exact List.sum_eq_foldl.symm
  · simp only [RunTest]
    rw [List.sum_eq_foldl]

/-- Claim C8 witness at 2 iterations over 1 element. -/
theorem C8_runtest_sum_and_average_witness :
    1 ≤ 2 ∧
    ((RunTest engEx clockEx 2 1).durations.length = 2
      ∧ (RunTest engEx clockEx 2 1).returned = (RunTest engEx clockEx 2 1).durations.sum
      ∧ (RunTest engEx clockEx 2 1).average
        = (RunTest engEx clockEx 2 1).durations.sum / ((2 : Nat) : ℚ)) :=
  ⟨by norm_num, C8_runtest_sum_and_average engEx clockEx 2 1 (by norm_num)⟩

/-- Claim C9: the entry point ignores its command-line arguments, invokes
`RunTest` exactly once per map-implementation × hasher-variant combination
with iteration count 5 and element count 20000, prints per hasher variant
the ratio of the boost map's total runtime to the standard map's total
runtime, and returns exit code 0. -/
theorem C9_main_behaviour (eng : RandomEngine)
    (clock : MapImpl → Variant → Nat → ℚ)
    (argc1 argc2 : Nat) (argv1 argv2 : List String) :
    tmain eng clock argc1 argv1 = tmain eng clock argc2 argv2
    ∧ (tmain eng clock argc1 argv1).calls
      = [(.boostMap, .A, 5, 20000), (.stdMap, .A, 5, 20000),
         (.boostMap, .B, 5, 20000), (.stdMap, .B, 5, 20000)]
    ∧ (tmain eng clock argc1 argv1).ratioA
      = (RunTest eng (clock .boostMap .A) 5 20000).returned
        / (RunTest eng (clock .stdMap .A) 5 20000).returned
    ∧ (tmain eng clock argc1 argv1).ratioB
      = (RunTest eng (clock .boostMap .B) 5 20000).returned
        / (RunTest eng (clock .stdMap .B) 5 20000).returned
    ∧ (tmain eng clock argc1 argv1).exitCode = 0 :=
  ⟨rfl, rfl, rfl, rfl, rfl⟩

/-- Claim C10: `Key::operator==` holds exactly when both the numeric fields
and the text fields agree (structural equality over both fields). -/
theorem C10_key_equality_structural (k1 k2 : Key) :
    Key.beq k1 k2 = true ↔ k1.Datum = k2.Datum ∧ k1.Text = k2.Text := by
  simp [Key.beq]

end StdMapPerf
